import Mathlib

set_option maxRecDepth 100000

/-!
Verification of the Merkle light-client core in
`blockchain-frontend/src/App.js`: the transaction hasher
(`calculateTxHash`) and the client-side Merkle proof verifier
(`verifyMerkleProofClientSide`).

The JavaScript code hashes with the `js-sha256` library (SHA-256, lowercase
hex output).  We embed SHA-256 itself, executing over `Nat` (all 32-bit
words are kept reduced modulo `2 ^ 32` explicitly), so that the concrete
scenarios of the specification can be settled by evaluation.  All recursion
is structural so the kernel can reduce every definition.
-/

/-- Reduce a word modulo `2 ^ 32`. -/
def w32 (x : Nat) : Nat := x % 4294967296

/-- Right rotation of a 32-bit word (input assumed `< 2 ^ 32`). -/
def rotr (n x : Nat) : Nat := (x >>> n) ||| (w32 (x <<< (32 - n)))

/-- SHA-256 big sigma 0. -/
def bigSigma0 (x : Nat) : Nat := (rotr 2 x) ^^^ (rotr 13 x) ^^^ (rotr 22 x)

/-- SHA-256 big sigma 1. -/
def bigSigma1 (x : Nat) : Nat := (rotr 6 x) ^^^ (rotr 11 x) ^^^ (rotr 25 x)

/-- SHA-256 small sigma 0. -/
def smallSigma0 (x : Nat) : Nat := (rotr 7 x) ^^^ (rotr 18 x) ^^^ (x >>> 3)

/-- SHA-256 small sigma 1. -/
def smallSigma1 (x : Nat) : Nat := (rotr 17 x) ^^^ (rotr 19 x) ^^^ (x >>> 10)

/-- SHA-256 choice function (bitwise not of `x` is xor with the 32-bit mask). -/
def chFn (x y z : Nat) : Nat := (x &&& y) ^^^ ((x ^^^ 4294967295) &&& z)

/-- SHA-256 majority function. -/
def majFn (x y z : Nat) : Nat := (x &&& y) ^^^ (x &&& z) ^^^ (y &&& z)

/-- The 64 SHA-256 round constants (FIPS 180-2, written in decimal). -/
def sha256K : List Nat :=
  [1116352408, 1899447441, 3049323471, 3921009573, 961987163,
   1508970993, 2453635748, 2870763221, 3624381080, 310598401,
   607225278, 1426881987, 1925078388, 2162078206, 2614888103,
   3248222580, 3835390401, 4022224774, 264347078, 604807628,
   770255983, 1249150122, 1555081692, 1996064986, 2554220882,
   2821834349, 2952996808, 3210313671, 3336571891, 3584528711,
   113926993, 338241895, 666307205, 773529912, 1294757372,
   1396182291, 1695183700, 1986661051, 2177026350, 2456956037,
   2730485921, 2820302411, 3259730800, 3345764771, 3516065817,
   3600352804, 4094571909, 275423344, 430227734, 506948616,
   659060556, 883997877, 958139571, 1322822218, 1537002063,
   1747873779, 1955562222, 2024104815, 2227730452, 2361852424,
   2428436474, 2756734187, 3204031479, 3329325298]

/-- The SHA-256 initial hash state (FIPS 180-2, written in decimal). -/
def sha256Init : List Nat :=
  [1779033703, 3144134277, 1013904242, 2773480762,
   1359893119, 2600822924, 528734635, 1541459225]

/-- Big-endian 64-bit byte encoding of a message bit length. -/
def lenBytesBE (n : Nat) : List Nat :=
  [n >>> 56 &&& 255, n >>> 48 &&& 255, n >>> 40 &&& 255, n >>> 32 &&& 255,
   n >>> 24 &&& 255, n >>> 16 &&& 255, n >>> 8 &&& 255, n &&& 255]

/-- SHA-256 padding: append `0x80`, zero bytes up to 56 mod 64, then the
bit length as 8 big-endian bytes. -/
def padMessage (msg : List Nat) : List Nat :=
  msg ++ (128 :: List.replicate ((119 - msg.length % 64) % 64) 0)
      ++ lenBytesBE (msg.length * 8)

/-- Combine bytes into big-endian 32-bit words, `fuel` words at most. -/
def bytesToWords : Nat → List Nat → List Nat
  | 0, _ => []
  | _ + 1, b0 :: b1 :: b2 :: b3 :: rest =>
      (b0 <<< 24 ||| b1 <<< 16 ||| b2 <<< 8 ||| b3) :: bytesToWords rest.length rest
  | _ + 1, _ => []

/-- Message-schedule extension; `acc` holds the words produced so far in
reverse order, so indices 1, 6, 14, 15 of `acc` are `W[t-2]`, `W[t-7]`,
`W[t-15]`, `W[t-16]`. -/
def extendLoop : Nat → List Nat → List Nat
  | 0, acc => acc
  | f + 1, acc =>
      let w2 := acc.getD 1 0
      let w7 := acc.getD 6 0
      let w15 := acc.getD 14 0
      let w16 := acc.getD 15 0
      extendLoop f (w32 (smallSigma1 w2 + w7 + smallSigma0 w15 + w16) :: acc)

/-- Expand the 16 block words into the 64-entry message schedule. -/
def msgSchedule (ws : List Nat) : List Nat :=
  (extendLoop 48 ws.reverse).reverse

/-- One round of the SHA-256 compression function per `(k, w)` pair. -/
def compressLoop : List (Nat × Nat) → List Nat → List Nat
  | [], st => st
  | (k, w) :: rest, [a, b, c, d, e, f, g, h] =>
      let t1 := w32 (h + bigSigma1 e + chFn e f g + k + w)
      let t2 := w32 (bigSigma0 a + majFn a b c)
      compressLoop rest [w32 (t1 + t2), a, b, c, w32 (d + t1), e, f, g]
  | _, st => st

/-- Process one 64-byte block, updating the 8-word hash state. -/
def processBlock (H : List Nat) (block : List Nat) : List Nat :=
  let st := compressLoop (sha256K.zip (msgSchedule (bytesToWords 16 block))) H
  List.zipWith (fun x y => w32 (x + y)) H st

/-- Fold over all 64-byte blocks of the padded message (`fuel` bounds the
number of steps and is instantiated with the message length). -/
def sha256Blocks : Nat → List Nat → List Nat → List Nat
  | 0, H, _ => H
  | _ + 1, H, [] => H
  | f + 1, H, bytes => sha256Blocks f (processBlock H (bytes.take 64)) (bytes.drop 64)

/-- UTF-8 encoding of a single code point. -/
def utf8Bytes (c : Nat) : List Nat :=
  if c < 128 then [c]
  else if c < 2048 then [192 + c / 64, 128 + c % 64]
  else if c < 65536 then [224 + c / 4096, 128 + c / 64 % 64, 128 + c % 64]
  else [240 + c / 262144, 128 + c / 4096 % 64, 128 + c / 64 % 64, 128 + c % 64]

/-- The UTF-8 bytes of a string (as the `js-sha256` library consumes it). -/
def strBytes (s : String) : List Nat :=
  (s.data.map (fun c => utf8Bytes c.toNat)).flatten

/-- Lowercase hex digit. -/
def hexDigit (n : Nat) : Char :=
  match n with
  | 0 => '0' | 1 => '1' | 2 => '2' | 3 => '3'
  | 4 => '4' | 5 => '5' | 6 => '6' | 7 => '7'
  | 8 => '8' | 9 => '9' | 10 => 'a' | 11 => 'b'
  | 12 => 'c' | 13 => 'd' | 14 => 'e' | _ => 'f'

/-- Lowercase hex rendering of one 32-bit word (8 digits). -/
def wordHex (w : Nat) : List Char :=
  [hexDigit (w >>> 28 &&& 15), hexDigit (w >>> 24 &&& 15),
   hexDigit (w >>> 20 &&& 15), hexDigit (w >>> 16 &&& 15),
   hexDigit (w >>> 12 &&& 15), hexDigit (w >>> 8 &&& 15),
   hexDigit (w >>> 4 &&& 15), hexDigit (w &&& 15)]

/-- SHA-256 of a string, as the lowercase hex digest: the behaviour of the
JavaScript call `sha256(s)` from `js-sha256`.  The streaming form
`sha256.create().update(a).update(b).hex()` used in the verifier equals
`sha256sum (a ++ b)`, which is how the verifier below is embedded. -/
def sha256sum (s : String) : String :=
  let msg := padMessage (strBytes s)
  String.mk (((sha256Blocks msg.length sha256Init msg).map wordHex).flatten)

/-! ## Embedding of the core in `App.js` -/

/-- A transaction as rendered and hashed by the frontend
(`amount` is a non-negative integer per the data model). -/
structure Transaction where
  sender : String
  recipient : String
  amount : Nat

/-- Embeds `calculateTxHash` from `App.js`:

    const calculateTxHash = (tx) => \x7b
      return sha256(`<span class="math-inline">\{tx\.sender\}</span>{tx.recipient}${tx.amount}`);
    \x7d;

In the JavaScript template literal only `${tx.amount}` is an interpolation;
`\{tx\.sender\}` (escaped braces) and `{tx.recipient}` (no dollar sign) are
literal text, as is the surrounding `<span>` markup.  The cooked string is
therefore the fixed prefix below followed by the decimal rendering of
`tx.amount`. -/
def calculateTxHash (tx : Transaction) : String :=
  sha256sum ("<span class=\"math-inline\">\x7btx.sender\x7d</span>\x7btx.recipient\x7d"
    ++ toString tx.amount)

/-- Lexicographic comparison of character lists: the embedding of the
JavaScript `<` operator on strings, which compares character by character
and makes a shorter string smaller than any proper extension. -/
def ltChars : List Char → List Char → Bool
  | [], [] => false
  | [], _ :: _ => true
  | _ :: _, [] => false
  | a :: as, b :: bs =>
      if a < b then true
      else if b < a then false
      else ltChars as bs

/-- The JavaScript string comparison `a < b` used by the verifier. -/
def strLt (a b : String) : Bool := ltChars a.data b.data

/-- Embeds one iteration of the verifier loop in `verifyMerkleProofClientSide`:

    let hasher = sha256.create();
    if (currentHash < siblingHash) \x7b
      hasher.update(currentHash); hasher.update(siblingHash);
    \x7d else \x7b
      hasher.update(siblingHash); hasher.update(currentHash);
    \x7d
    currentHash = hasher.hex();

Two `update` calls followed by `hex()` hash the concatenation of the two
strings.  JavaScript `<` on strings is lexicographic, matching `String.lt`
on the hex-digest alphabet. -/
def combineHashes (currentHash siblingHash : String) : String :=
  if strLt currentHash siblingHash then sha256sum (currentHash ++ siblingHash)
  else sha256sum (siblingHash ++ currentHash)

/-- Embeds the `for (const siblingHash of merkle_proof)` loop of
`verifyMerkleProofClientSide`, which recomputes the root from the leaf. -/
def recomputeRoot (currentHash : String) (proof : List String) : String :=
  match proof with
  | [] => currentHash
  | siblingHash :: rest => recomputeRoot (combineHashes currentHash siblingHash) rest

/-- Embeds the verdict of `verifyMerkleProofClientSide` on an explicit
leaf digest, proof path and expected root: the loop above followed by
`currentHash === merkle_root`. -/
def verifyMerkleProofClientSide (tx_hash : String) (merkle_proof : List String)
    (merkle_root : String) : Bool :=
  recomputeRoot tx_hash merkle_proof == merkle_root

/-- The proof object as the frontend receives it from the backend and
destructures it: `const { tx_hash, merkle_root, merkle_proof } = merkleProofResult;`
plus the `block_index` field displayed in the JSX
(`merkleProofResult.block_index`). -/
structure MerkleProofResult where
  tx_hash : String
  merkle_root : String
  block_index : Nat
  merkle_proof : List String

/-- The field names of the proof object that `App.js` reads: `tx_hash`,
`merkle_root` and `merkle_proof` are destructured in
`verifyMerkleProofClientSide`, and `block_index` is read in the JSX display. -/
def merkleProofResultFieldNames : List String :=
  ["tx_hash", "merkle_root", "block_index", "merkle_proof"]

/-- The verifier applied to a whole proof object, exactly as
`verifyMerkleProofClientSide` consumes `merkleProofResult` (a pure read of
the three fields; the object is not mutated). -/
def verifyFromProofResult (m : MerkleProofResult) : Bool :=
  recomputeRoot m.tx_hash m.merkle_proof == m.merkle_root

/-! ## Spec-side definitions (for refinement claims)

These follow the specification text, to be compared with the embedded code. -/

/-- Modelled from the spec wording of the pair rule (section 4.2, step 1):
"the smaller value is placed first, the larger second", then hash the
ordered concatenation. -/
def specCombine (a b : String) : String :=
  if a ≤ b then sha256sum (a ++ b) else sha256sum (b ++ a)

/-- Modelled from the spec wording of correct-path construction
(section 8, correct-path acceptance): iteratively combine the leaf with each
entry of the proof using the sorted-concatenation hash rule. -/
def specComputeRoot (leaf : String) (proof : List String) : String :=
  proof.foldl specCombine leaf

/-! ## Helper lemmas -/

/-- Sanity check of the hash embedding against the FIPS 180-2 test vector. -/
theorem sha256sum_abc :
    sha256sum "abc" = "ba7816bf8f01cfea414140de5dae2223b00361a396177a9cb410ff61f20015ad" := by
  decide

/-- Sanity check: the empty-message SHA-256 digest. -/
theorem sha256sum_empty :
    sha256sum "" = "e3b0c44298fc1c149afbf4c8996fb92427ae41e4649b934ca495991b7852b855" := by
  decide

theorem ltChars_iff_lex (cs ds : List Char) :
    ltChars cs ds = true ↔ List.Lex (· < ·) cs ds := by
  induction cs generalizing ds with
  | nil =>
    cases ds with
    | nil =>
      simp only [ltChars]
      exact iff_of_false (by simp) (List.Lex.not_nil_right _ _)
    | cons d ds => exact ⟨fun _ => List.Lex.nil, fun _ => rfl⟩
  | cons c cs ih =>
    cases ds with
    | nil =>
      simp only [ltChars]
      exact iff_of_false (by simp) (List.Lex.not_nil_right _ _)
    | cons d ds =>
      rcases lt_trichotomy c d with h | h | h
      · simp only [ltChars, if_pos h]
        exact ⟨fun _ => List.Lex.rel h, fun _ => trivial⟩
      · subst h
        simp only [ltChars, if_neg (lt_irrefl c)]
        exact (ih ds).trans List.Lex.cons_iff.symm
      · simp only [ltChars, if_neg (asymm h), if_pos h]
        refine iff_of_false (by simp) (fun hl => ?_)
        cases hl with
        | cons h1 => exact absurd h (lt_irrefl c)
        | rel h2 => exact absurd h2 (asymm h)

theorem strLt_iff_lt (a b : String) : strLt a b = true ↔ a < b := by
  rw [String.lt_iff_toList_lt]
  exact ltChars_iff_lex a.data b.data

theorem recomputeRoot_eq_foldl (proof : List String) (l : String) :
    recomputeRoot l proof = proof.foldl combineHashes l := by
  induction proof generalizing l with
  | nil => rfl
  | cons s rest ih => simp [recomputeRoot, List.foldl, ih]

theorem combineHashes_eq_specCombine (a b : String) :
    combineHashes a b = specCombine a b := by
  unfold combineHashes specCombine
  rcases lt_trichotomy a b with h | h | h
  · rw [if_pos ((strLt_iff_lt a b).mpr h), if_pos (le_of_lt h)]
  · subst h
    rw [if_neg (fun hc => lt_irrefl a ((strLt_iff_lt a a).mp hc)), if_pos (le_refl a)]
  · rw [if_neg (fun hc => absurd ((strLt_iff_lt a b).mp hc) (asymm h)),
      if_neg (not_le_of_gt h)]

theorem combineHashes_fn_eq : combineHashes = specCombine := by
  funext a b
  exact combineHashes_eq_specCombine a b

theorem combineHashes_comm (a b : String) : combineHashes a b = combineHashes b a := by
  unfold combineHashes
  rcases lt_trichotomy a b with h | h | h
  · rw [if_pos ((strLt_iff_lt a b).mpr h),
      if_neg (fun hc => absurd ((strLt_iff_lt b a).mp hc) (asymm h))]
  · subst h
    rfl
  · rw [if_neg (fun hc => absurd ((strLt_iff_lt a b).mp hc) (asymm h)),
      if_pos ((strLt_iff_lt b a).mpr h)]

/-- Modelled from the spec scenario (section 8): `H1 = hash("aa"+"bb")`,
then `R = hash(H1+"cc")` if `H1 < "cc"`, else `R = hash("cc"+H1)` (the
string comparison is `strLt`, the embedding of the JavaScript `<`). -/
def scenarioRoot : String :=
  if strLt (sha256sum ("aa" ++ "bb")) "cc" then sha256sum (sha256sum ("aa" ++ "bb") ++ "cc")
  else sha256sum ("cc" ++ sha256sum ("aa" ++ "bb"))

/-! ## Claim theorems -/

/-- C1: for every leaf digest, proof path and expected root, the verifier
folds over the proof path in order, each step hashing the concatenation of
the lexicographically smaller value first and the larger second, and the
verdict is exactly the boolean `current == expectedRoot` after all proof
entries are consumed. -/
theorem verify_folds_sorted_pairs (leaf : String) (proof : List String) (root : String) :
    verifyMerkleProofClientSide leaf proof root = (proof.foldl specCombine leaf == root) := by
  unfold verifyMerkleProofClientSide
  rw [recomputeRoot_eq_foldl, combineHashes_fn_eq]

/-- C3: if the root is constructed by iteratively combining the leaf with
each proof entry using the sorted-concatenation hash rule, the verifier
accepts. -/
theorem verify_accepts_computed_root (L : String) (P : List String) :
    verifyMerkleProofClientSide L P (specComputeRoot L P) = true := by
  unfold verifyMerkleProofClientSide specComputeRoot
  rw [recomputeRoot_eq_foldl, combineHashes_fn_eq]
  exact beq_self_eq_true _

/-- C4: with an empty proof the verdict is exactly `leaf == expectedRoot`:
it is `true` on `(L, [], L)` and `false` on `(L, [], R)` whenever `L ≠ R`. -/
theorem verify_empty_proof (L R : String) :
    verifyMerkleProofClientSide L [] R = (L == R) ∧
    verifyMerkleProofClientSide L [] L = true ∧
    (L ≠ R → verifyMerkleProofClientSide L [] R = false) := by
  refine ⟨rfl, ?_, fun h => ?_⟩
  · exact beq_self_eq_true L
  · exact beq_eq_false_iff_ne.mpr h

/-- C4 witness: the empty-proof cases evaluated at `"aa"` and `"bb"`. -/
theorem verify_empty_proof_witness :
    verifyMerkleProofClientSide "aa" [] "aa" = true ∧
    verifyMerkleProofClientSide "aa" [] "bb" = false :=
  ⟨(verify_empty_proof "aa" "aa").2.1, (verify_empty_proof "aa" "bb").2.2 (by decide)⟩

/-- C5: verification is total on arbitrary strings (well-formed digests or
not): it always returns one of the two booleans, and it returns `false`
exactly when the recomputed root mismatches the expected root — mismatches
never produce anything other than `false`. -/
theorem verify_total (l : String) (p : List String) (r : String) :
    (verifyMerkleProofClientSide l p r = true ∨ verifyMerkleProofClientSide l p r = false) ∧
    (verifyMerkleProofClientSide l p r = false ↔ recomputeRoot l p ≠ r) := by
  constructor
  · cases h : verifyMerkleProofClientSide l p r
    · exact Or.inr rfl
    · exact Or.inl rfl
  · unfold verifyMerkleProofClientSide
    exact beq_eq_false_iff_ne

/-- C7: the concrete scenario of the spec: with `L = "aa"` (and indeed
`"aa" < "bb"`), `H1 = hash("aa"+"bb")` and `R` built from `H1` and `"cc"`
by the sorted rule, the verifier accepts `["bb","cc"]` against `R` and
rejects both `["bb","dd"]` and the reversed proof `["cc","bb"]`. -/
theorem verify_concrete_scenario :
    ("aa" : String) < "bb" ∧
    verifyMerkleProofClientSide "aa" ["bb", "cc"] scenarioRoot = true ∧
    verifyMerkleProofClientSide "aa" ["bb", "dd"] scenarioRoot = false ∧
    verifyMerkleProofClientSide "aa" ["cc", "bb"] scenarioRoot = false := by
  refine ⟨(strLt_iff_lt "aa" "bb").mp (by decide), by decide, by decide, by decide⟩

/-- C8: transaction hashing is deterministic: hashing the same transaction
twice gives the same digest, and transactions equal field-for-field give
equal digests. -/
theorem calculateTxHash_deterministic (t1 t2 : Transaction)
    (_hs : t1.sender = t2.sender) (_hr : t1.recipient = t2.recipient)
    (ha : t1.amount = t2.amount) :
    calculateTxHash t1 = calculateTxHash t1 ∧ calculateTxHash t1 = calculateTxHash t2 := by
  refine ⟨rfl, ?_⟩
  unfold calculateTxHash
  rw [ha]

/-- C8 witness: determinism evaluated at the spec example transaction. -/
theorem calculateTxHash_deterministic_witness :
    calculateTxHash ⟨"Alice", "Bob", 10⟩ = calculateTxHash ⟨"Alice", "Bob", 10⟩ ∧
    calculateTxHash ⟨"Alice", "Bob", 10⟩ = calculateTxHash ⟨"Alice", "Bob", 10⟩ :=
  calculateTxHash_deterministic ⟨"Alice", "Bob", 10⟩ ⟨"Alice", "Bob", 10⟩ rfl rfl rfl

/-- C9: the computed transaction digest depends only on `tx.amount`; any two
transactions with the same amount hash identically, whatever their sender
and recipient, because only the amount is interpolated into the hashed
template string. -/
theorem calculateTxHash_ignores_parties (t1 t2 : Transaction)
    (h : t1.amount = t2.amount) :
    calculateTxHash t1 = calculateTxHash t2 := by
  unfold calculateTxHash
  rw [h]

/-- C9 witness: two transactions with different parties but amount 10 hash
identically. -/
theorem calculateTxHash_ignores_parties_witness :
    calculateTxHash ⟨"Alice", "Bob", 10⟩ = calculateTxHash ⟨"Carol", "Dave", 10⟩ :=
  calculateTxHash_ignores_parties ⟨"Alice", "Bob", 10⟩ ⟨"Carol", "Dave", 10⟩ rfl

/-- C2 (code bug): the code hashes the corrupted template literal — the
fixed `<span ...>` text followed only by the amount — rather than
`sender ++ recipient ++ amount`; at the spec example transaction the
produced digest is the hash of that literal and differs from
`sha256("AliceBob10")`, which the claim requires. -/
theorem calculateTxHash_literal_bug :
    calculateTxHash ⟨"Alice", "Bob", 10⟩ =
      sha256sum "<span class=\"math-inline\">\x7btx.sender\x7d</span>\x7btx.recipient\x7d10" ∧
    calculateTxHash ⟨"Alice", "Bob", 10⟩ ≠ sha256sum "AliceBob10" := by
  constructor
  · decide
  · decide

/-- C6 counterexample: none of the field names the claim asserts
(`txHash`, `merkleRoot`, `blockIndex`, `proofPath`) is among the field
names the code actually reads from the proof object. -/
theorem merkleProofResult_fields_not_camel :
    ¬ ("txHash" ∈ merkleProofResultFieldNames ∧
       "merkleRoot" ∈ merkleProofResultFieldNames ∧
       "blockIndex" ∈ merkleProofResultFieldNames ∧
       "proofPath" ∈ merkleProofResultFieldNames) := by
  decide

/-- C6 amended: the proof object carries the fields `tx_hash`,
`merkle_root`, `block_index` and `merkle_proof`, and the core reads the
leaf digest, sibling list and claimed root from exactly those fields,
without mutating the object (the verdict is a pure function of the three
fields read). -/
theorem merkleProofResult_fields_snake :
    merkleProofResultFieldNames = ["tx_hash", "merkle_root", "block_index", "merkle_proof"] ∧
    ∀ m : MerkleProofResult,
      verifyFromProofResult m =
        verifyMerkleProofClientSide m.tx_hash m.merkle_proof m.merkle_root :=
  ⟨rfl, fun _ => rfl⟩

/-- C10: the per-step pair combination is commutative, and consequently a
one-entry verification is symmetric in the leaf and the sibling. -/
theorem verify_step_commutative (a b : String) :
    combineHashes a b = combineHashes b a ∧
    ∀ r : String, verifyMerkleProofClientSide a [b] r = verifyMerkleProofClientSide b [a] r := by
  refine ⟨combineHashes_comm a b, fun r => ?_⟩
  unfold verifyMerkleProofClientSide recomputeRoot
  rw [combineHashes_comm a b]

